import Mathlib

/-!
Shallow embedding of the market-making-platform core
(`src/core/wager_manager.py`, `src/risk/risk_manager.py`,
`src/data/market_data_manager.py`, `src/exchanges/prophet_sports_api.py`)
together with theorems settling the specification claims about it.

Modelling conventions:
* Python `dict`s are modelled as insertion-ordered association lists
  (`dinsert` updates an existing key in place, otherwise appends — exactly
  CPython's dict semantics).
* Python `float` amounts (stakes, sizes, limits) are modelled as `ℚ`.
* Fallible remote (transport) calls are modelled by an explicit outcome
  argument: the value the call returned, or the fact that it raised.
* `time.time()` values are threaded as an explicit `now : ℚ` argument.
-/

namespace MMPlatform

/-- Python-dict lookup over an insertion-ordered association list. -/
def dlookup {κ α : Type} [DecidableEq κ] (k : κ) : List (κ × α) → Option α
  | [] => none
  | (k', v) :: rest => if k' = k then some v else dlookup k rest

/-- Python-dict assignment `d[k] = v`: update an existing key in place,
otherwise append at the end (CPython insertion-order semantics). -/
def dinsert {κ α : Type} [DecidableEq κ] (k : κ) (v : α) : List (κ × α) → List (κ × α)
  | [] => [(k, v)]
  | (k', v') :: rest => if k' = k then (k, v) :: rest else (k', v') :: dinsert k v rest

/-- Python-dict deletion / `d.pop(k, None)`. -/
def derase {κ α : Type} [DecidableEq κ] (k : κ) : List (κ × α) → List (κ × α)
  | [] => []
  | (k', v') :: rest => if k' = k then rest else (k', v') :: derase k rest

lemma dlookup_dinsert {κ α : Type} [DecidableEq κ] (k k' : κ) (v : α) (m : List (κ × α)) :
    dlookup k' (dinsert k v m) = if k' = k then some v else dlookup k' m := by
  induction m with
  | nil =>
    by_cases h : k' = k
    · subst h; simp [dinsert, dlookup]
    · simp [dinsert, dlookup, h, Ne.symm h]
  | cons hd tl ih =>
    obtain ⟨k0, v0⟩ := hd
    by_cases h0 : k0 = k
    · subst h0
      by_cases h1 : k' = k0
      · subst h1; simp [dinsert, dlookup]
      · simp [dinsert, dlookup, h1, Ne.symm h1]
    · by_cases h1 : k' = k0
      · subst h1
        have h2 : ¬ k' = k := fun hh => h0 (hh ▸ rfl)
        simp [dinsert, dlookup, h0, h2]
      · simp [dinsert, dlookup, h0, h1, Ne.symm h1, ih]

/-! ## Wager-manager data model (`wager_manager.py`, `prophet_sports_api.py`) -/

/-- `WagerStatus` enum of `prophet_sports_api.py` (`opened` models `OPEN`,
which is a Lean keyword). -/
inductive WagerStatus
  | pending
  | opened
  | matched
  | cancelled
  | settled
  deriving Repr, DecidableEq

/-- `Wager` dataclass of `prophet_sports_api.py` (fields not read by the
wager manager's control flow are kept for faithfulness). -/
structure Wager where
  external_id : String
  line_id : Int
  odds : Int
  stake : ℚ
  selection_id : Int := 0
  selection_name : String := ""
  status : WagerStatus := .pending
  wager_id : Option Int := none
  filled_stake : ℚ := 0
  timestamp : Option ℚ := none
  deriving Repr, DecidableEq

/-- `WagerRecord` dataclass of `wager_manager.py`.  `market_context` is
only ever read through `market_context.get('event_id')`, so it is modelled
by that optional entry. -/
structure WagerRecord where
  wager : Wager
  created_at : ℚ
  updated_at : ℚ
  strategy_name : String
  market_context_event_id : Option Int
  deriving Repr, DecidableEq

/-- The fields of `TradingConfig` (`config/settings.py`) read by the wager
manager. -/
structure TradingConfig where
  max_stake_per_wager : ℚ
  max_total_exposure : ℚ
  min_odds : Int
  max_odds : Int
  max_concurrent_wagers : Nat
  deriving Repr, DecidableEq

/-- Mutable state of a `WagerManager` instance. -/
structure WMState where
  active_wagers : List (String × WagerRecord)
  wager_history : List WagerRecord
  pending_placements : List (String × Wager)
  pending_cancellations : List (String × String)
  total_placed : Nat
  total_cancelled : Nat
  deriving Repr, DecidableEq

/-- `WagerManager.__init__` state. -/
def initWMState : WMState :=
  { active_wagers := []
    wager_history := []
    pending_placements := []
    pending_cancellations := []
    total_placed := 0
    total_cancelled := 0 }

/-- `WagerManager.get_total_exposure`: sum of `record.wager.stake` over
`active_wagers.values()`. -/
def get_total_exposure (s : WMState) : ℚ :=
  (s.active_wagers.map (fun p => p.2.wager.stake)).sum

/-- `WagerManager.get_exposure_by_event`. -/
def get_exposure_by_event (s : WMState) (event_id : Int) : ℚ :=
  ((s.active_wagers.filter
      (fun p => p.2.market_context_event_id = some event_id)).map
    (fun p => p.2.wager.stake)).sum

/-- `WagerManager._validate_wager`. -/
def validate_wager (cfg : TradingConfig) (w : Wager) : Bool :=
  if w.stake ≤ 0 then false
  else if w.stake > cfg.max_stake_per_wager then false
  else if ¬ (cfg.min_odds ≤ w.odds ∧ w.odds ≤ cfg.max_odds) then false
  else true

/-- `WagerManager._check_position_limits`. -/
def check_position_limits (cfg : TradingConfig) (s : WMState) (w : Wager) : Bool :=
  if get_total_exposure s + w.stake > cfg.max_total_exposure then false
  else if s.active_wagers.length ≥ cfg.max_concurrent_wagers then false
  else true

/-- Outcome of the transport call `api.place_wager`: either the
`Optional[int]` it returned, or the fact that it raised. -/
inductive PlaceOutcome
  | ret (id : Option Int)
  | exn
  deriving Repr, DecidableEq

/-- Outcome of a transport call returning `bool` (`api.cancel_wager`,
`api.cancel_all_wagers`): the returned value, or the fact that it raised. -/
inductive BoolOutcome
  | ret (b : Bool)
  | exn
  deriving Repr, DecidableEq

/-- Result of one `place_wager` call: the Python return value, whether the
transport placement primitive was invoked, and the post-call state. -/
structure PlaceReturn where
  result : Option Int
  transport_called : Bool
  state : WMState
  deriving Repr, DecidableEq

/-- `WagerManager.place_wager`.  `tr` is the outcome of the
`api.place_wager` call; `Python`'s truthiness test `if wager_id:` treats
both `None` and `0` as failure. -/
def place_wager (cfg : TradingConfig) (s : WMState) (w : Wager)
    (strategy_name : String) (market_context_event_id : Option Int)
    (tr : PlaceOutcome) (now : ℚ) : PlaceReturn :=
  if ¬ validate_wager cfg w then
    ⟨none, false, s⟩
  else if ¬ check_position_limits cfg s w then
    ⟨none, false, s⟩
  else
    let s1 : WMState :=
      { s with pending_placements := dinsert w.external_id w s.pending_placements }
    match tr with
    | .exn =>
        ⟨none, true,
          { s1 with pending_placements := derase w.external_id s1.pending_placements }⟩
    | .ret wid =>
        let success : Bool := match wid with
          | some n => n ≠ 0
          | none => false
        let s2 : WMState :=
          if success then
            { s1 with
                active_wagers :=
                  dinsert w.external_id
                    ⟨w, now, now, strategy_name, market_context_event_id⟩
                    s1.active_wagers
                total_placed := s1.total_placed + 1 }
          else s1
        ⟨wid, true,
          { s2 with pending_placements := derase w.external_id s2.pending_placements }⟩

/-- `WagerManager.cancel_wager`.  `tr` is the outcome of `api.cancel_wager`. -/
def cancel_wager (s : WMState) (external_id reason : String)
    (tr : BoolOutcome) (now : ℚ) : Bool × WMState :=
  match dlookup external_id s.active_wagers with
  | none => (false, s)
  | some record =>
      let s1 : WMState :=
        { s with pending_cancellations :=
            dinsert external_id reason s.pending_cancellations }
      match tr with
      | .exn =>
          (false,
            { s1 with pending_cancellations :=
                derase external_id s1.pending_cancellations })
      | .ret success =>
          let s2 : WMState :=
            if success then
              { s1 with
                  active_wagers := derase external_id s1.active_wagers
                  wager_history := s1.wager_history ++
                    [{ record with
                        updated_at := now
                        wager := { record.wager with status := .cancelled } }]
                  total_cancelled := s1.total_cancelled + 1 }
            else s1
          (success,
            { s2 with pending_cancellations :=
                derase external_id s2.pending_cancellations })

/-- `WagerManager.cancel_all_wagers`.  `tr` is the outcome of
`api.cancel_all_wagers`.  On success every active record is appended to
history with status `CANCELLED`, `total_cancelled` grows by the count, and
the active map is cleared. -/
def cancel_all_wagers (s : WMState) (tr : BoolOutcome) (now : ℚ) : Bool × WMState :=
  match tr with
  | .exn => (false, s)
  | .ret success =>
      if success then
        (true,
          { s with
              wager_history := s.wager_history ++
                s.active_wagers.map (fun p =>
                  { p.2 with
                      updated_at := now
                      wager := { p.2.wager with status := .cancelled } })
              total_cancelled := s.total_cancelled + s.active_wagers.length
              active_wagers := [] })
      else (false, s)

/-- One call against the wager manager, with the transport outcome that
the exchange produced for it. -/
inductive WMOp
  | place (w : Wager) (strategy_name : String)
      (market_context_event_id : Option Int) (tr : PlaceOutcome) (now : ℚ)
  | cancel (external_id reason : String) (tr : BoolOutcome) (now : ℚ)
  | cancelAll (reason : String) (tr : BoolOutcome) (now : ℚ)

/-- Apply one call to the manager state. -/
def stepOp (cfg : TradingConfig) (s : WMState) : WMOp → WMState
  | .place w strat ctx tr now => (place_wager cfg s w strat ctx tr now).state
  | .cancel eid reason tr now => (cancel_wager s eid reason tr now).2
  | .cancelAll _ tr now => (cancel_all_wagers s tr now).2

/-- Run a sequence of calls from the fresh manager state. -/
def runOps (cfg : TradingConfig) (ops : List WMOp) : WMState :=
  ops.foldl (stepOp cfg) initWMState

/-- Modelled from the spec: the exposure recomputed from full enumeration
of the active-wager set — "the sum of `wager.stake` over the records
currently in the active set". -/
def exposure_by_enumeration (active : List (String × WagerRecord)) : ℚ :=
  active.foldr (fun p acc => p.2.wager.stake + acc) 0

/-! ## Risk manager (`risk_manager.py`) -/

/-- The fields of `RiskConfig` (`config/settings.py`) read by
`check_wager_risk`. -/
structure RiskConfig where
  max_daily_loss : ℚ
  max_position_size : ℚ
  position_limits : List (String × ℚ)
  deriving Repr, DecidableEq

/-- Mutable state of a `RiskManager` instance that `check_wager_risk`
reads (`daily_pnl`). -/
structure RiskState where
  daily_pnl : ℚ
  deriving Repr, DecidableEq

/-- `RiskManager.check_wager_risk`.  `ctx` models
`market_context.get('event_id')` (the only entry the function reads);
Python's `if event_id:` treats `0` as absent. -/
def check_wager_risk (rc : RiskConfig) (rs : RiskState) (wm : WMState)
    (w : Wager) (ctx : Option Int) : Bool :=
  if w.stake > rc.max_position_size then false
  else if get_total_exposure wm + w.stake > rc.max_position_size * 10 then false
  else if rs.daily_pnl < -rc.max_daily_loss then false
  else
    match ctx with
    | some event_id =>
        if event_id ≠ 0 then
          if get_exposure_by_event wm event_id + w.stake >
              (dlookup (toString event_id) rc.position_limits).getD rc.max_position_size
          then false else true
        else true
    | none => true

/-- State-passing reading of `check_wager_risk`: every `return` site of
the source leaves both the risk manager's and the wager manager's state
untouched (the body only reads `daily_pnl`, `get_total_exposure`,
`get_exposure_by_event` and config), so the call returns the input states
unchanged. -/
def check_wager_risk_run (rc : RiskConfig) (rs : RiskState) (wm : WMState)
    (w : Wager) (ctx : Option Int) : Bool × RiskState × WMState :=
  (check_wager_risk rc rs wm w ctx, rs, wm)

/-- State-passing reading of `WagerManager._check_position_limits`: the
body only reads state, so the call returns the input state unchanged. -/
def check_position_limits_run (cfg : TradingConfig) (s : WMState) (w : Wager) :
    Bool × WMState :=
  (check_position_limits cfg s w, s)

/-! ## Dictionary lemmas used by the wager-manager proofs -/

lemma dinsert_eq_append_of_dlookup_none {κ α : Type} [DecidableEq κ]
    {k : κ} (v : α) {m : List (κ × α)} (hk : dlookup k m = none) :
    dinsert k v m = m ++ [(k, v)] := by
  induction m with
  | nil => rfl
  | cons hd tl ih =>
    obtain ⟨k0, v0⟩ := hd
    by_cases h0 : k0 = k
    · simp [dlookup, h0] at hk
    · simp only [dlookup, if_neg h0] at hk
      simp [dinsert, h0, ih hk]

lemma derase_append_single_of_dlookup_none {κ α : Type} [DecidableEq κ]
    {k : κ} (v : α) {m : List (κ × α)} (hk : dlookup k m = none) :
    derase k (m ++ [(k, v)]) = m := by
  induction m with
  | nil => simp [derase]
  | cons hd tl ih =>
    obtain ⟨k0, v0⟩ := hd
    by_cases h0 : k0 = k
    · simp [dlookup, h0] at hk
    · simp only [dlookup, if_neg h0] at hk
      simp [derase, h0, ih hk]

lemma validate_wager_stake_le (cfg : TradingConfig) (w : Wager)
    (h : validate_wager cfg w = true) : w.stake ≤ cfg.max_stake_per_wager := by
  by_contra hn
  unfold validate_wager at h
  by_cases hc1 : w.stake ≤ 0
  · rw [if_pos hc1] at h; cases h
  · rw [if_neg hc1, if_pos (not_le.mp hn)] at h; cases h

/-! ## Claim theorems C1–C4 -/

/-- C1: for any sequence of `place_wager`, `cancel_wager` and
`cancel_all_wagers` calls, `get_total_exposure()` equals the sum of
`wager.stake` over the records currently in the active-wager set,
recomputed from full enumeration of that set. -/
theorem C1_exposure_consistency (cfg : TradingConfig) (ops : List WMOp) :
    get_total_exposure (runOps cfg ops) =
      exposure_by_enumeration (runOps cfg ops).active_wagers := by
  have h : ∀ l : List (String × WagerRecord),
      (l.map (fun p => p.2.wager.stake)).sum = exposure_by_enumeration l := by
    intro l
    induction l with
    | nil => simp [exposure_by_enumeration]
    | cons hd tl ih => simp [exposure_by_enumeration, ih]
  exact h _

/-- C2: every failed placement (validation failure, position-limit
failure, transport returning no id, or transport raising) returns `None`,
leaves no pending-placement entry for the wager, creates no record in the
active set, and leaves `total_placed` unchanged; a stake above
`max_stake_per_wager` never reaches the transport at all. -/
theorem C2_failed_placement_clean_state (cfg : TradingConfig)
    (s : WMState) (w : Wager) (strat : String) (ctx : Option Int)
    (tr : PlaceOutcome) (now : ℚ)
    (hpend : dlookup w.external_id s.pending_placements = none)
    (hfail : validate_wager cfg w = false ∨ check_position_limits cfg s w = false ∨
      tr = .ret none ∨ tr = .exn) :
    (place_wager cfg s w strat ctx tr now).result = none ∧
    dlookup w.external_id
      (place_wager cfg s w strat ctx tr now).state.pending_placements = none ∧
    (place_wager cfg s w strat ctx tr now).state.active_wagers = s.active_wagers ∧
    (place_wager cfg s w strat ctx tr now).state.total_placed = s.total_placed ∧
    (w.stake > cfg.max_stake_per_wager →
      (place_wager cfg s w strat ctx tr now).transport_called = false) := by
  have hseq : derase w.external_id
      (dinsert w.external_id w s.pending_placements) = s.pending_placements := by
    rw [dinsert_eq_append_of_dlookup_none w hpend,
      derase_append_single_of_dlookup_none w hpend]
  by_cases hv : validate_wager cfg w
  · by_cases hc : check_position_limits cfg s w
    · have htr : tr = .ret none ∨ tr = .exn := by
        rcases hfail with h | h | h | h
        · exact absurd hv (by simp [h])
        · exact absurd hc (by simp [h])
        · exact Or.inl h
        · exact Or.inr h
      have hstk : ¬ w.stake > cfg.max_stake_per_wager :=
        not_lt.mpr (validate_wager_stake_le cfg w hv)
      rcases htr with h | h <;>
        simp [place_wager, hv, hc, h, hseq, hpend, hstk]
    · simp [place_wager, hv, hc, hpend]
  · simp [place_wager, hv, hpend]

/-- C2 witness: a wager with stake 50 against `max_stake_per_wager = 10`
fails validation; the placement returns `None`, no state survives, and
the transport is not called. -/
theorem C2_failed_placement_clean_state_witness :
    (place_wager ⟨10, 1000, -200, 200, 50⟩ initWMState
        { external_id := "w1", line_id := 1, odds := 100, stake := 50 }
        "mm" none (.ret (some 7)) 0).result = none ∧
    dlookup "w1"
      (place_wager ⟨10, 1000, -200, 200, 50⟩ initWMState
        { external_id := "w1", line_id := 1, odds := 100, stake := 50 }
        "mm" none (.ret (some 7)) 0).state.pending_placements = none ∧
    (place_wager ⟨10, 1000, -200, 200, 50⟩ initWMState
        { external_id := "w1", line_id := 1, odds := 100, stake := 50 }
        "mm" none (.ret (some 7)) 0).state.active_wagers = initWMState.active_wagers ∧
    (place_wager ⟨10, 1000, -200, 200, 50⟩ initWMState
        { external_id := "w1", line_id := 1, odds := 100, stake := 50 }
        "mm" none (.ret (some 7)) 0).state.total_placed = initWMState.total_placed ∧
    ((50 : ℚ) > 10 →
      (place_wager ⟨10, 1000, -200, 200, 50⟩ initWMState
        { external_id := "w1", line_id := 1, odds := 100, stake := 50 }
        "mm" none (.ret (some 7)) 0).transport_called = false) :=
  C2_failed_placement_clean_state ⟨10, 1000, -200, 200, 50⟩ initWMState
    { external_id := "w1", line_id := 1, odds := 100, stake := 50 }
    "mm" none (.ret (some 7)) 0 (by decide) (Or.inl (by decide))

/-- Example trading config used by concrete wager-manager inputs
(the documented defaults of `config/settings.py`). -/
def cfgEx : TradingConfig := ⟨10, 1000, -200, 200, 50⟩

/-- Example wager passing validation and position limits under `cfgEx`. -/
def wEx : Wager := { external_id := "w1", line_id := 1, odds := 100, stake := 5 }

/-- A manager state in which the external id of `wEx` is already
registered in the pending-placement set (a concurrent placement of the
same id is in flight). -/
def sPendingEx : WMState :=
  { initWMState with pending_placements := [("w1", wEx)] }

/-- C3 counterexample: with `"w1"` already in the pending-placement set,
a second `place_wager` call for the same external id is **not** refused —
the transport placement primitive is invoked and the call returns the new
id, contradicting the claimed `DuplicateInFlight` refusal. -/
theorem C3_counterexample :
    dlookup "w1" sPendingEx.pending_placements = some wEx ∧
    (place_wager cfgEx sPendingEx wEx "mm" none (.ret (some 7)) 0).transport_called = true ∧
    (place_wager cfgEx sPendingEx wEx "mm" none (.ret (some 7)) 0).result = some 7 := by
  have hv : validate_wager cfgEx wEx = true := by decide
  have hc : check_position_limits cfgEx sPendingEx wEx = true := by
    norm_num [check_position_limits, get_total_exposure, sPendingEx, initWMState, cfgEx, wEx]
  exact ⟨rfl, by simp [place_wager, hv, hc], by simp [place_wager, hv, hc]⟩

/-- C3 amended: `place_wager` performs no duplicate-in-flight check — for
every state, including one whose pending-placement set already contains
the wager's external id, a placement attempt that passes validation and
position limits always invokes the transport placement primitive (the
pending entry is silently overwritten). -/
theorem C3_no_duplicate_guard (cfg : TradingConfig) (s : WMState) (w : Wager)
    (strat : String) (ctx : Option Int) (tr : PlaceOutcome) (now : ℚ)
    (hv : validate_wager cfg w = true)
    (hc : check_position_limits cfg s w = true)
    (_hpend : (dlookup w.external_id s.pending_placements).isSome = true) :
    (place_wager cfg s w strat ctx tr now).transport_called = true := by
  cases tr <;> simp [place_wager, hv, hc]

/-- C3 witness: the duplicate-pending scenario of the counterexample,
run through the amended theorem. -/
theorem C3_no_duplicate_guard_witness :
    (place_wager cfgEx sPendingEx wEx "mm" none (.ret (some 7)) 0).transport_called = true :=
  C3_no_duplicate_guard cfgEx sPendingEx wEx "mm" none (.ret (some 7)) 0
    (by decide)
    (by norm_num [check_position_limits, get_total_exposure, sPendingEx, initWMState, cfgEx, wEx])
    (by decide)

/-- C4: the pre-placement risk evaluation rejects every wager whose stake
added to the current total exposure exceeds `max_total_exposure` (the
placement returns `None`, the state is untouched and the transport is not
called), and both evaluation functions are side-effect free: their
state-passing readings return the input states unchanged. -/
theorem C4_exposure_limit_rejection_and_purity (cfg : TradingConfig)
    (rc : RiskConfig) (rs : RiskState) (s : WMState) (w : Wager)
    (strat : String) (ctx : Option Int) (tr : PlaceOutcome) (now : ℚ)
    (hexceed : get_total_exposure s + w.stake > cfg.max_total_exposure) :
    check_position_limits cfg s w = false ∧
    (place_wager cfg s w strat ctx tr now).result = none ∧
    (place_wager cfg s w strat ctx tr now).state = s ∧
    (place_wager cfg s w strat ctx tr now).transport_called = false ∧
    (check_position_limits_run cfg s w).2 = s ∧
    (check_wager_risk_run rc rs s w ctx).2.1 = rs ∧
    (check_wager_risk_run rc rs s w ctx).2.2 = s := by
  have hreject : check_position_limits cfg s w = false := by
    simp [check_position_limits, hexceed]
  by_cases hv : validate_wager cfg w <;>
    simp [place_wager, hv, hreject, check_position_limits_run, check_wager_risk_run]

/-- C4 witness: with total exposure 0 and `max_total_exposure = 1000`, a
stake of 2000 is rejected by the position-limit check; the evaluation is
state-preserving. -/
theorem C4_exposure_limit_rejection_and_purity_witness :
    check_position_limits cfgEx initWMState
      { external_id := "w2", line_id := 1, odds := 100, stake := 2000 } = false ∧
    (place_wager cfgEx initWMState
      { external_id := "w2", line_id := 1, odds := 100, stake := 2000 }
      "mm" none (.ret (some 7)) 0).result = none ∧
    (place_wager cfgEx initWMState
      { external_id := "w2", line_id := 1, odds := 100, stake := 2000 }
      "mm" none (.ret (some 7)) 0).state = initWMState ∧
    (place_wager cfgEx initWMState
      { external_id := "w2", line_id := 1, odds := 100, stake := 2000 }
      "mm" none (.ret (some 7)) 0).transport_called = false ∧
    (check_position_limits_run cfgEx initWMState
      { external_id := "w2", line_id := 1, odds := 100, stake := 2000 }).2 = initWMState ∧
    (check_wager_risk_run ⟨500, 100, []⟩ ⟨0⟩ initWMState
      { external_id := "w2", line_id := 1, odds := 100, stake := 2000 } none).2.1 = ⟨0⟩ ∧
    (check_wager_risk_run ⟨500, 100, []⟩ ⟨0⟩ initWMState
      { external_id := "w2", line_id := 1, odds := 100, stake := 2000 } none).2.2 = initWMState :=
  C4_exposure_limit_rejection_and_purity cfgEx ⟨500, 100, []⟩ ⟨0⟩ initWMState
    { external_id := "w2", line_id := 1, odds := 100, stake := 2000 }
    "mm" none (.ret (some 7)) 0
    (by norm_num [get_total_exposure, initWMState, cfgEx])

/-! ## Market data manager (`market_data_manager.py`) -/

/-- `MarketDataManager._is_better_odds`: American-odds comparison with
nullable odds, mirroring the source's branch structure. -/
def is_better_odds (new_odds current_odds : Option Int) : Bool :=
  match new_odds, current_odds with
  | none, none => false
  | none, some _ => false
  | some _, none => true
  | some n, some c =>
      if n > 0 ∧ c > 0 then decide (n > c)
      else if n < 0 ∧ c < 0 then decide (n.natAbs < c.natAbs)
      else if n > 0 ∧ c < 0 then true
      else if n < 0 ∧ c > 0 then false
      else false

/-- C5: the American-odds comparator satisfies all the properties the
spec lists: null loses to any priced value and null-vs-null is false; two
positives compare by magnitude; two negatives by smaller absolute value;
positive dominates negative; and `better(x, x) = false` for every `x`,
zero included — together with all the concrete sample evaluations. -/
theorem C5_odds_comparator (a b : Int) (x : Option Int)
    (hpa : 0 < a) (hnb : b < 0) :
    (∀ v : Int, is_better_odds none (some v) = false) ∧
    is_better_odds none none = false ∧
    (∀ v : Int, is_better_odds (some v) none = true) ∧
    (∀ p q : Int, 0 < p → 0 < q → (is_better_odds (some p) (some q) = decide (p > q))) ∧
    (∀ p q : Int, p < 0 → q < 0 →
      (is_better_odds (some p) (some q) = decide (p.natAbs < q.natAbs))) ∧
    is_better_odds (some a) (some b) = true ∧
    is_better_odds (some b) (some a) = false ∧
    (is_better_odds x x = false) ∧
    is_better_odds (some 0) (some 0) = false ∧
    is_better_odds (some 200) (some 150) = true ∧
    is_better_odds (some (-110)) (some (-150)) = true ∧
    is_better_odds (some 100) (some (-100)) = true ∧
    is_better_odds none (some 150) = false ∧
    is_better_odds (some 150) none = true := by
  have hxx : ∀ y : Option Int, is_better_odds y y = false := by
    intro y
    match y with
    | none => rfl
    | some n =>
        rcases lt_trichotomy n 0 with h | h | h
        · simp [is_better_odds, h, not_lt_of_lt h]
        · simp [is_better_odds, h]
        · simp [is_better_odds, h, not_lt_of_lt h]
  refine ⟨fun v => rfl, rfl, fun v => rfl, ?_, ?_, ?_, ?_, hxx x, by decide, by decide,
    by decide, by decide, rfl, rfl⟩
  · intro p q hp hq
    simp [is_better_odds, hp, hq]
  · intro p q hp hq
    simp [is_better_odds, hp, hq, not_lt_of_lt hp, not_lt_of_lt hq]
  · simp [is_better_odds, hpa, hnb, not_lt_of_lt hpa, not_lt_of_lt hnb]
  · simp [is_better_odds, hpa, hnb, not_lt_of_lt hpa, not_lt_of_lt hnb]

/-- C5 witness: the claim instantiated at the positive/negative pair
`(+100, -100)` and at `x = some 0`. -/
theorem C5_odds_comparator_witness :
    is_better_odds (some 100) (some (-100)) = true ∧
    is_better_odds (some (-100)) (some 100) = false :=
  ⟨(C5_odds_comparator 100 (-100) (some 0) (by decide) (by decide)).2.2.2.2.2.1,
   (C5_odds_comparator 100 (-100) (some 0) (by decide) (by decide)).2.2.2.2.2.2.1⟩

/-! ## Notification fan-out
(`MarketDataManager._notify_subscribers`, `ProphetSportsAPI._trigger_callbacks`) -/

/-- What one subscriber invocation produced: a normal return, or the
exception the `except` clause caught and logged. -/
inductive CbResult
  | ok
  | failed (msg : String)
  deriving Repr, DecidableEq

/-- The fan-out loop of `_notify_subscribers` / `_trigger_callbacks`: each
registered callback is invoked with the update type and payload; a raised
exception is caught (becoming a `.failed` entry of the trace) and the loop
continues.  The async/sync callback distinction of the source is
invocation plumbing and is not modelled.  The function's return type being
a plain trace (not an exception-carrying value) reflects that the loop
itself never raises. -/
def notify_subscribers {α : Type} (subscribers : List (String → α → CbResult))
    (update_type : String) (data : α) : List CbResult :=
  match subscribers with
  | [] => []
  | callback :: rest =>
      callback update_type data :: notify_subscribers rest update_type data

/-- C9: `notify` invokes each subscriber exactly once, in subscription
order — the i-th entry of the delivery trace is exactly the i-th
subscriber's own invocation result, and the trace has one entry per
subscriber — so a subscriber that raises (a `.failed` entry) never
prevents any later subscriber's invocation, and the loop itself returns
normally on every input. -/
theorem C9_notify_isolation {α : Type} (subscribers : List (String → α → CbResult))
    (update_type : String) (data : α) :
    (notify_subscribers subscribers update_type data).length = subscribers.length ∧
    ∀ i : Nat, (notify_subscribers subscribers update_type data)[i]? =
      (subscribers[i]?).map (fun callback => callback update_type data) := by
  induction subscribers with
  | nil => exact ⟨rfl, fun i => by simp [notify_subscribers]⟩
  | cons hd tl ih =>
      refine ⟨by simpa [notify_subscribers] using ih.1, fun i => ?_⟩
      cases i with
      | zero => simp [notify_subscribers]
      | succ n => simpa [notify_subscribers] using ih.2 n

/-! ## Order-book data model (`market_data_manager.py`) -/

/-- `SelectionLevel` dataclass.  Though annotated `int`, `odds` stores
`None` for unpriced entries in the source, so it is modelled as
`Option Int`.  Sizes and timestamps are `ℚ`; every level of one update
carries the same `now` timestamp. -/
structure SelectionLevel where
  selection_id : Nat
  selection_name : String
  odds : Option Int
  size : ℚ
  timestamp : ℚ
  deriving Repr, DecidableEq

/-- `OrderBook` dataclass.  `selections` and `line_groups` are
insertion-ordered dicts; derived-metric fields are carried but only
`_calculate_order_book_metrics` (not needed by any claim) writes them. -/
structure OrderBook where
  event_id : Int
  market_id : String
  market_type : String
  event_name : String
  selections : List (Nat × SelectionLevel)
  line_groups : List (String × List (String × List SelectionLevel))
  available_lines : List String
  last_update : ℚ
  best_selection : Option SelectionLevel
  spread : ℚ
  total_volume : ℚ
  deriving Repr, DecidableEq

/-- One selection entry of the feed, i.e. the fields the processing
algorithms read via `.get`: `name` defaults to `''`, `odds` is nullable,
`value` defaults to `0`, `outcome_id` defaults to `0`. -/
structure SelEntry where
  name : String
  odds : Option Int
  value : ℚ
  line_id : String
  outcome_id : Nat
  deriving Repr, DecidableEq

/-- `display_value = 0.0 if odds is None else (value if value > 0 else 1.0)`. -/
def display_value (odds : Option Int) (value : ℚ) : ℚ :=
  match odds with
  | none => 0
  | some _ => if value > 0 then value else 1

/-- Accumulator entry of the `best_selections` dict in
`_process_direct_selections`. -/
structure BestSel where
  name : String
  odds : Option Int
  value : ℚ
  original_value : ℚ
  line_id : String
  outcome_id : Nat
  deriving Repr, DecidableEq

/-- One iteration of the `best_selections` loop of
`_process_direct_selections`.  `h` stands in for Python's (seeded) string
hash, used only to fabricate an outcome id when the entry has none. -/
def update_best_selections (h : String → Nat) (best : List (String × BestSel))
    (sel : SelEntry) : List (String × BestSel) :=
  if sel.name = "" then best
  else
    match dlookup sel.name best with
    | none =>
        dinsert sel.name
          { name := sel.name
            odds := sel.odds
            value := display_value sel.odds sel.value
            original_value := sel.value
            line_id := sel.line_id
            outcome_id := if sel.outcome_id = 0 then h sel.name % 10000 else sel.outcome_id }
          best
    | some cur =>
        if is_better_odds sel.odds cur.odds then
          dinsert sel.name
            { cur with
                odds := sel.odds
                value := max (display_value sel.odds sel.value) cur.value
                line_id := sel.line_id
                outcome_id := if sel.outcome_id = 0 then cur.outcome_id else sel.outcome_id }
            best
        else best

/-- Final loop of `_process_direct_selections`: store each best entry as
a `SelectionLevel` (size = the recorded best `value`) under its outcome
id. -/
def store_best_level (now : ℚ) (b : OrderBook) (p : String × BestSel) : OrderBook :=
  { b with selections :=
      (dinsert p.2.outcome_id ⟨p.2.outcome_id, p.1, p.2.odds, p.2.value, now⟩
        b.selections) }

/-- `MarketDataManager._process_direct_selections`.  Feed entries that are
not lists are wrapped as singleton groups by the flattening prologue, so
the input is modelled as a list of groups. -/
def process_direct_selections (h : String → Nat) (now : ℚ) (book : OrderBook)
    (selections : List (List SelEntry)) : OrderBook :=
  let all_selections := selections.flatten
  let best := all_selections.foldl (update_best_selections h) []
  best.foldl (store_best_level now) book

/-! ## Line-grouped processing (`_process_market_lines`) -/

/-- Python `str()` of a nullable odds value as interpolated into the
`unique_id` f-string (`None` for null). -/
def py_str_odds : Option Int → String
  | none => "None"
  | some n => toString n

/-- Rendering of a numeric feed `value` into the `unique_id` f-string.
Python's rendering depends on the runtime type of the JSON number
(`"50"` for int, `"50.0"` for float); the development relies only on the
rendering being a function of the value. -/
def py_str_value (q : ℚ) : String :=
  if q.den = 1 then toString q.num else toString q.num ++ "/" ++ toString q.den

/-- `unique_id = f"{outcome_id}_{line_value}_{odds}_{value}"[:20]`. -/
def unique_id_string (outcome_id : Nat) (line_value : String) (odds : Option Int)
    (value : ℚ) : List Char :=
  (toString outcome_id ++ "_" ++ line_value ++ "_" ++ py_str_odds odds ++ "_"
    ++ py_str_value value).data.take 20

/-- `unique_selection_id = hash(unique_id) % 100000`, with the
(seed-dependent) Python string hash abstracted as `h`. -/
def unique_selection_id (h : List Char → Nat) (outcome_id : Nat) (line_value : String)
    (odds : Option Int) (value : ℚ) : Nat :=
  h (unique_id_string outcome_id line_value odds value) % 100000

/-- One element of a `selections_by_name` bucket in
`_process_market_lines`. -/
structure PreLevel where
  name : String
  odds : Option Int
  value : ℚ
  original_value : ℚ
  line_id : String
  outcome_id : Nat
  unique_id : Nat
  line_value : String
  deriving Repr, DecidableEq

/-- Append `v` to the bucket of `k`, creating the bucket first when
missing (`if k not in d: d[k] = []` followed by `d[k].append(v)`). -/
def dappend {κ α : Type} [DecidableEq κ] (k : κ) (v : α) (m : List (κ × List α)) :
    List (κ × List α) :=
  match dlookup k m with
  | none => dinsert k [v] m
  | some l => dinsert k (l ++ [v]) m

/-- One iteration of the `selections_by_name` grouping loop of
`_process_market_lines`. -/
def add_selection_by_name (h : List Char → Nat) (line_value : String)
    (acc : List (String × List PreLevel)) (sel : SelEntry) :
    List (String × List PreLevel) :=
  if sel.name = "" then acc
  else
    dappend sel.name
      { name := sel.name
        odds := sel.odds
        value := display_value sel.odds sel.value
        original_value := sel.value
        line_id := sel.line_id
        outcome_id := sel.outcome_id
        unique_id := unique_selection_id h sel.outcome_id line_value sel.odds sel.value
        line_value := line_value }
      acc

/-- Key comparison of the per-name sort
(`key = odds if odds is not None else inf, reverse=True`): null keys as
`+inf`; `a` may stay before `b` iff `key a ≥ key b`. -/
def odds_desc_le (a b : Option Int) : Bool :=
  match a, b with
  | none, _ => true
  | some _, none => false
  | some x, some y => decide (y ≤ x)

/-- The per-name sort of `_process_market_lines`: performed only when the
first bucket entry is priced; Python's stable `sort(reverse=True)` is
modelled by the stable `insertionSort` under the same total preorder
(stable sorts under one preorder have identical output). -/
def sort_levels (levels : List PreLevel) : List PreLevel :=
  match levels with
  | [] => []
  | l0 :: _ =>
      if l0.odds = none then levels
      else levels.insertionSort (fun a b => odds_desc_le a.odds b.odds = true)

/-- `SelectionLevel(...)` construction inside the level loop. -/
def mk_selection_level (now : ℚ) (pre : PreLevel) : SelectionLevel :=
  { selection_id := pre.unique_id
    selection_name := pre.name
    odds := pre.odds
    size := pre.value
    timestamp := now }

/-- Body of the level loop: append the level to
`line_groups[line_value][name]` and insert it into the flat `selections`
map under its derived unique id. -/
def add_level (lv name : String) (now : ℚ) (b : OrderBook) (pre : PreLevel) :
    OrderBook :=
  let level := mk_selection_level now pre
  let g := (dlookup lv b.line_groups).getD []
  let cur := (dlookup name g).getD []
  { b with
      line_groups := dinsert lv (dinsert name (cur ++ [level]) g) b.line_groups
      selections := dinsert pre.unique_id level b.selections }

/-- Per-name processing: set up `line_groups[line_value][name]` when
missing, then run the level loop. -/
def add_name_levels (lv : String) (now : ℚ) (b : OrderBook) (name : String)
    (levels : List PreLevel) : OrderBook :=
  let g := (dlookup lv b.line_groups).getD []
  let g2 := if (dlookup name g).isSome then g else dinsert name [] g
  let b2 := { b with line_groups := dinsert lv g2 b.line_groups }
  levels.foldl (add_level lv name now) b2

/-- One entry of `market_lines`: `line_value` is
`str(line.get('line', 'N/A'))`, pre-rendered; `selections` the
(singleton-wrapped) groups. -/
structure LineEntry where
  line_value : String
  selections : List (List SelEntry)
  deriving Repr, DecidableEq

/-- Per-line processing of `_process_market_lines`: register the line
value (appending it to `available_lines` when new), bucket the line's
selections by name, and run the per-name level loops. -/
def process_line (h : List Char → Nat) (now : ℚ) (b : OrderBook) (line : LineEntry) :
    OrderBook :=
  let lv := line.line_value
  let b1 :=
    if (dlookup lv b.line_groups).isSome then b
    else
      { b with
          line_groups := dinsert lv [] b.line_groups
          available_lines := b.available_lines ++ [lv] }
  let by_name := (line.selections.flatten).foldl (add_selection_by_name h lv) []
  by_name.foldl (fun b2 p => add_name_levels lv now b2 p.1 (sort_levels p.2)) b1

/-! ## The `available_lines` sort -/

/-- Exact value of a decimal literal accepted by Python `float()` in the
forms `str()` produces for line numbers: optional sign, digits, optional
fraction.  The value is `num / 10 ^ scale`, kept unreduced so that every
comparison is integer arithmetic.  Exponent, `inf`/`nan` and underscore
forms of `float()` are never produced by `str()` of a line number and are
not modelled (they parse as failures). -/
structure PyDecimal where
  num : Int
  scale : Nat
  deriving Repr, DecidableEq

/-- Value of a digit string. -/
def digits_value (cs : List Char) : Nat :=
  cs.foldl (fun n c => 10 * n + (c.toNat - 48)) 0

/-- Split a character list at the first `.` (at most one is allowed). -/
def split_dot (cs : List Char) : List Char × Option (List Char) :=
  match cs with
  | [] => ([], none)
  | c :: rest =>
      if c = '.' then ([], some rest)
      else
        let r := split_dot rest
        (c :: r.1, r.2)

/-- Parse an unsigned decimal body: digits, optionally with one dot
(either side of the dot may be empty, but not both — `float("1.")` and
`float(".5")` succeed, `float(".")` and `float("")` fail). -/
def parse_decimal_body (cs : List Char) : Option PyDecimal :=
  let p := split_dot cs
  match p.2 with
  | none =>
      if cs.length ≠ 0 ∧ cs.all Char.isDigit then some ⟨digits_value cs, 0⟩
      else none
  | some fp =>
      if (p.1.length ≠ 0 ∨ fp.length ≠ 0) ∧
          p.1.all Char.isDigit ∧ fp.all Char.isDigit then
        some ⟨digits_value p.1 * 10 ^ fp.length + digits_value fp, fp.length⟩
      else none

/-- `float(x)` on the decimal forms above, with optional sign. -/
def py_float (s : String) : Option PyDecimal :=
  match s.data with
  | [] => none
  | c :: rest =>
      if c = '-' then (parse_decimal_body rest).map (fun d => ⟨-d.num, d.scale⟩)
      else if c = '+' then parse_decimal_body rest
      else parse_decimal_body s.data

/-- Exact comparison `a.num / 10^a.scale ≤ b.num / 10^b.scale` by cross
multiplication (all integer arithmetic). -/
def py_decimal_le (a b : PyDecimal) : Bool :=
  decide (a.num * (10 : Int) ^ b.scale ≤ b.num * (10 : Int) ^ a.scale)

/-- Sort key of the numeric `available_lines` sort:
`float(x) if x != 'N/A' else float('inf')` — `'N/A'` keys as `+∞`. -/
def line_key (x : String) : Option PyDecimal :=
  if x = "N/A" then none else py_float x

/-- `key a ≤ key b` with `none` as `+∞`.  (A non-`'N/A'` string that fails
to parse also keys as `+∞`, but the numeric sort is only reached when
every non-`'N/A'` entry parses.) -/
def line_key_le (a b : String) : Bool :=
  match line_key a, line_key b with
  | _, none => true
  | none, some _ => false
  | some p, some q => py_decimal_le p q

/-- Code-point-lexicographic `a ≤ b` on character lists (Python string
comparison). -/
def chars_le : List Char → List Char → Bool
  | [], _ => true
  | _ :: _, [] => false
  | a :: as, b :: bs =>
      if a.toNat < b.toNat then true
      else if b.toNat < a.toNat then false
      else chars_le as bs

/-- Python `a <= b` on strings. -/
def str_le (a b : String) : Bool := chars_le a.data b.data

/-- The `available_lines` sort of `_process_market_lines`:
`sort(key=lambda x: float(x) if x != 'N/A' else float('inf'))`, falling
back to the plain alphabetical `sort()` when any non-`'N/A'` entry fails
to parse (CPython computes all keys before reordering, so the
`ValueError` leaves the list in its original order for the `except`
branch).  Python's stable sort under a total preorder is modelled by the
stable `insertionSort` under the same preorder. -/
def sort_available_lines (lines : List String) : List String :=
  if lines.all (fun x => x = "N/A" || (py_float x).isSome) then
    lines.insertionSort (fun a b => line_key_le a b = true)
  else
    lines.insertionSort (fun a b => str_le a b = true)

/-! ## `_process_market_lines` and the update dispatcher -/

/-- `MarketDataManager._process_market_lines`: early return on an empty
list; otherwise clear the line data, process every line, and sort the
collected `available_lines`. -/
def process_market_lines (h : List Char → Nat) (now : ℚ) (book : OrderBook)
    (market_lines : List LineEntry) : OrderBook :=
  if market_lines = [] then book
  else
    let b1 := { book with line_groups := [], available_lines := [] }
    let b2 := market_lines.foldl (process_line h now) b1
    { b2 with available_lines := sort_available_lines b2.available_lines }

/-- The market dict fields `_process_market_selections` dispatches on.  A
missing key and an empty list are both falsy in the source's
`'selections' in market and market['selections']` test, so both are
modelled as `[]`. -/
structure Market where
  selections : List (List SelEntry)
  market_lines : List LineEntry
  deriving Repr, DecidableEq

/-- `MarketDataManager._process_market_selections`: clear the flat
`selections` map, dispatch to the flat or line-grouped algorithm, refresh
`last_update`.  The direct-selection path hashes strings, the line path
hashes the (already truncated) unique-id character lists; both stand in
for Python's seeded string hash. -/
def process_market_selections (hs : String → Nat) (h : List Char → Nat) (now : ℚ)
    (book : OrderBook) (market : Market) : OrderBook :=
  let b0 := { book with selections := [] }
  let b1 :=
    if market.selections ≠ [] then process_direct_selections hs now b0 market.selections
    else if market.market_lines ≠ [] then process_market_lines h now b0 market.market_lines
    else b0
  { b1 with last_update := now }

/-! ## Order lemmas for the two sort relations -/

lemma py_decimal_le_total (a b : PyDecimal) :
    py_decimal_le a b = true ∨ py_decimal_le b a = true := by
  simp only [py_decimal_le, decide_eq_true_eq]
  exact le_total _ _

lemma py_decimal_le_trans {a b c : PyDecimal}
    (h1 : py_decimal_le a b = true) (h2 : py_decimal_le b c = true) :
    py_decimal_le a c = true := by
  simp only [py_decimal_le, decide_eq_true_eq] at h1 h2 ⊢
  have hb : (0 : Int) < 10 ^ b.scale := pow_pos (by norm_num) _
  have hc : (0 : Int) ≤ 10 ^ c.scale := le_of_lt (pow_pos (by norm_num) _)
  have ha : (0 : Int) ≤ 10 ^ a.scale := le_of_lt (pow_pos (by norm_num) _)
  have e1 := mul_le_mul_of_nonneg_right h1 hc
  have e2 := mul_le_mul_of_nonneg_right h2 ha
  have e3 : a.num * 10 ^ c.scale * 10 ^ b.scale ≤ c.num * 10 ^ a.scale * 10 ^ b.scale := by
    nlinarith [e1, e2]
  exact le_of_mul_le_mul_right e3 hb

lemma chars_le_cons_iff (a b : Char) (as bs : List Char) :
    chars_le (a :: as) (b :: bs) = true ↔
      (a.toNat < b.toNat ∨ (a.toNat = b.toNat ∧ chars_le as bs = true)) := by
  rcases lt_trichotomy a.toNat b.toNat with h | h | h
  · simp [chars_le, h]
  · simp [chars_le, h, lt_irrefl]
  · have h1 : ¬ a.toNat < b.toNat := by omega
    have h2 : ¬ a.toNat = b.toNat := by omega
    simp [chars_le, h1, h, h2]

lemma chars_le_total : ∀ as bs : List Char, chars_le as bs = true ∨ chars_le bs as = true := by
  intro as
  induction as with
  | nil => intro bs; left; rfl
  | cons a as ih =>
      intro bs
      cases bs with
      | nil => right; rfl
      | cons b bs =>
          rcases lt_trichotomy a.toNat b.toNat with h | h | h
          · left; exact (chars_le_cons_iff a b as bs).mpr (Or.inl h)
          · rcases ih bs with h2 | h2
            · left; exact (chars_le_cons_iff a b as bs).mpr (Or.inr ⟨h, h2⟩)
            · right; exact (chars_le_cons_iff b a bs as).mpr (Or.inr ⟨h.symm, h2⟩)
          · right; exact (chars_le_cons_iff b a bs as).mpr (Or.inl h)

lemma chars_le_trans : ∀ as bs cs : List Char,
    chars_le as bs = true → chars_le bs cs = true → chars_le as cs = true := by
  intro as
  induction as with
  | nil => intro bs cs _ _; rfl
  | cons a as ih =>
      intro bs cs h1 h2
      cases bs with
      | nil => cases h1
      | cons b bs =>
          cases cs with
          | nil => cases h2
          | cons c cs =>
              rcases (chars_le_cons_iff a b as bs).mp h1 with hab | ⟨hab, hab2⟩ <;>
                rcases (chars_le_cons_iff b c bs cs).mp h2 with hbc | ⟨hbc, hbc2⟩
              · exact (chars_le_cons_iff a c as cs).mpr (Or.inl (by omega))
              · exact (chars_le_cons_iff a c as cs).mpr (Or.inl (by omega))
              · exact (chars_le_cons_iff a c as cs).mpr (Or.inl (by omega))
              · exact (chars_le_cons_iff a c as cs).mpr
                  (Or.inr ⟨by omega, ih bs cs hab2 hbc2⟩)

lemma str_le_total (a b : String) : str_le a b = true ∨ str_le b a = true :=
  chars_le_total a.data b.data

lemma str_le_trans {a b c : String} (h1 : str_le a b = true) (h2 : str_le b c = true) :
    str_le a c = true :=
  chars_le_trans a.data b.data c.data h1 h2

lemma line_key_le_total (a b : String) :
    line_key_le a b = true ∨ line_key_le b a = true := by
  unfold line_key_le
  cases ha : line_key a with
  | none => cases hb : line_key b with
    | none => left; rfl
    | some q => right; rfl
  | some p => cases hb : line_key b with
    | none => left; rfl
    | some q => exact py_decimal_le_total p q

lemma line_key_le_trans {a b c : String}
    (h1 : line_key_le a b = true) (h2 : line_key_le b c = true) :
    line_key_le a c = true := by
  unfold line_key_le at h1 h2 ⊢
  cases ha : line_key a with
  | none =>
      cases hc : line_key c with
      | none => rfl
      | some r =>
          cases hb : line_key b with
          | none => rw [hb, hc] at h2; cases h2
          | some q => rw [ha, hb] at h1; cases h1
  | some p =>
      cases hc : line_key c with
      | none => rfl
      | some r =>
          cases hb : line_key b with
          | none => rw [hb, hc] at h2; cases h2
          | some q =>
              rw [ha, hb] at h1
              rw [hb, hc] at h2
              exact py_decimal_le_trans h1 h2

/-! ## Claim theorems C7 -/

/-- Modelled from the spec's claimed ordering: numeric values ascending,
every non-numeric value after all numeric ones, alphabetical tiebreak
among non-numeric values. -/
def spec_line_le (a b : String) : Bool :=
  match py_float a, py_float b with
  | some p, some q => py_decimal_le p q
  | some _, none => true
  | none, some _ => false
  | none, none => str_le a b

/-- Adjacent-pairs check that a list is ordered under `le`. -/
def chain_le (le : String → String → Bool) : List String → Bool
  | [] => true
  | [_] => true
  | a :: b :: rest => le a b && chain_le le (b :: rest)

/-- C7 counterexample: for the lines `["10.5", "2.5", "foo"]` the numeric
key sort raises `ValueError` on `"foo"` and the code falls back to a
plain alphabetical sort of the whole list, leaving `"10.5"` before
`"2.5"` — not the claimed numeric-ascending-then-non-numeric order. -/
theorem C7_counterexample :
    sort_available_lines ["10.5", "2.5", "foo"] = ["10.5", "2.5", "foo"] ∧
    chain_le spec_line_le (sort_available_lines ["10.5", "2.5", "foo"]) = false := by
  constructor <;> decide

/-- C7 amended: when every line other than `'N/A'` parses as a float the
result is the stable numeric-ascending order with `'N/A'` keyed as `+∞`;
when any other line fails to parse, the whole list is sorted
alphabetically instead; the result is always a permutation of the input;
and the spec's concrete example (whose only non-numeric value is `'N/A'`)
sorts as claimed. -/
theorem C7_line_sorting (lines : List String) :
    sort_available_lines ["2.5", "N/A", "-1.5", "0.5"] = ["-1.5", "0.5", "2.5", "N/A"] ∧
    (sort_available_lines lines).Perm lines ∧
    ((∀ x ∈ lines, x = "N/A" ∨ (py_float x).isSome = true) →
      (sort_available_lines lines).Pairwise (fun a b => line_key_le a b = true)) ∧
    (¬ (∀ x ∈ lines, x = "N/A" ∨ (py_float x).isSome = true) →
      (sort_available_lines lines).Pairwise (fun a b => str_le a b = true)) := by
  have hcond : (lines.all (fun x => x = "N/A" || (py_float x).isSome)) = true ↔
      (∀ x ∈ lines, x = "N/A" ∨ (py_float x).isSome = true) := by
    simp [List.all_eq_true, Bool.or_eq_true, decide_eq_true_eq]
  refine ⟨by decide, ?_, ?_, ?_⟩
  · unfold sort_available_lines
    split
    · exact List.perm_insertionSort _ lines
    · exact List.perm_insertionSort _ lines
  · intro hall
    have : (lines.all (fun x => x = "N/A" || (py_float x).isSome)) = true := hcond.mpr hall
    unfold sort_available_lines
    rw [if_pos this]
    haveI : IsTotal String (fun a b => line_key_le a b = true) := ⟨line_key_le_total⟩
    haveI : IsTrans String (fun a b => line_key_le a b = true) :=
      ⟨fun _ _ _ => line_key_le_trans⟩
    exact List.sorted_insertionSort _ lines
  · intro hall
    have : ¬ (lines.all (fun x => x = "N/A" || (py_float x).isSome)) = true :=
      fun hc => hall (hcond.mp hc)
    unfold sort_available_lines
    rw [if_neg this]
    haveI : IsTotal String (fun a b => str_le a b = true) := ⟨str_le_total⟩
    haveI : IsTrans String (fun a b => str_le a b = true) :=
      ⟨fun _ _ _ => str_le_trans⟩
    exact List.sorted_insertionSort _ lines

/-- C7 witness: the amended theorem applied at the spec's example list,
whose non-numeric entries are exactly `'N/A'`, and at the fallback list. -/
theorem C7_line_sorting_witness :
    (sort_available_lines ["2.5", "N/A", "-1.5", "0.5"]).Pairwise
      (fun a b => line_key_le a b = true) ∧
    (sort_available_lines ["10.5", "2.5", "foo"]).Pairwise
      (fun a b => str_le a b = true) :=
  ⟨(C7_line_sorting ["2.5", "N/A", "-1.5", "0.5"]).2.2.1 (by decide),
   (C7_line_sorting ["10.5", "2.5", "foo"]).2.2.2 (by decide)⟩

/-! ## Claim theorems C8 -/

/-- An empty order book for a moneyline market, used by concrete
order-book inputs. -/
def emptyBookEx : OrderBook := ⟨777, "777_m1", "moneyline", "E", [], [], [], 0, none, 0, 0⟩

/-- First feed entry for `"Team A"`: odds −120, reported value 50. -/
def e1C8 : SelEntry := ⟨"Team A", some (-120), 50, "L1", 7⟩

/-- Second feed entry for `"Team A"`: better odds −110, reported value 5. -/
def e2C8 : SelEntry := ⟨"Team A", some (-110), 5, "L1", 7⟩

/-- C8 counterexample: the second `"Team A"` entry replaces the first
(odds −110 beat −120), and the claim says the stored size should then be
the entry's reported positive value, 5 — but the code stores
`max(new_display, old_stored) = max(5, 50) = 50`. -/
theorem C8_counterexample :
    is_better_odds e2C8.odds e1C8.odds = true ∧
    display_value e2C8.odds e2C8.value = 5 ∧
    (process_direct_selections (fun _ => 0) 0 emptyBookEx [[e1C8, e2C8]]).selections =
      [(7, ⟨7, "Team A", some (-110), 50, 0⟩)] ∧
    (50 : ℚ) ≠ 5 := by
  refine ⟨by decide, by decide, by decide, by norm_num⟩

/-- C8 amended: the display size of an entry is 0 when its odds are null,
its reported value when positive, else 1; a first entry for a name is
recorded with exactly its display size; an entry replacing a same-name
entry on better odds is recorded with the **maximum of its display size
and the previously recorded size**; an entry without better odds changes
nothing.  Levels are then created with the recorded size
(`store_best_level`). -/
theorem C8_stored_size (h : String → Nat) (best : List (String × BestSel))
    (sel : SelEntry) (hname : sel.name ≠ "") :
    (sel.odds = none → display_value sel.odds sel.value = 0) ∧
    (sel.odds ≠ none → sel.value > 0 → display_value sel.odds sel.value = sel.value) ∧
    (sel.odds ≠ none → ¬ sel.value > 0 → display_value sel.odds sel.value = 1) ∧
    (dlookup sel.name best = none →
      (dlookup sel.name (update_best_selections h best sel)).map (fun b => b.value) =
        some (display_value sel.odds sel.value)) ∧
    (∀ cur, dlookup sel.name best = some cur → is_better_odds sel.odds cur.odds = true →
      (dlookup sel.name (update_best_selections h best sel)).map (fun b => b.value) =
        some (max (display_value sel.odds sel.value) cur.value)) ∧
    (∀ cur, dlookup sel.name best = some cur → is_better_odds sel.odds cur.odds = false →
      update_best_selections h best sel = best) := by
  refine ⟨?_, ?_, ?_, ?_, ?_, ?_⟩
  · intro ho; simp [display_value, ho]
  · intro ho hv
    cases hodds : sel.odds with
    | none => exact absurd hodds ho
    | some o => simp [display_value, hv]
  · intro ho hv
    cases hodds : sel.odds with
    | none => exact absurd hodds ho
    | some o => simp [display_value, hv]
  · intro hmiss
    simp [update_best_selections, hname, hmiss, dlookup_dinsert]
  · intro cur hcur hbetter
    simp [update_best_selections, hname, hcur, hbetter, dlookup_dinsert]
  · intro cur hcur hworse
    simp [update_best_selections, hname, hcur, hworse]

/-- C8 witness: the amended theorem applied to the counterexample's
second entry against the table holding the first entry's record. -/
theorem C8_stored_size_witness :
    (dlookup "Team A"
        (update_best_selections (fun _ => 0)
          [("Team A", ⟨"Team A", some (-120), 50, 50, "L1", 7⟩)] e2C8)).map
      (fun b => b.value) = some (max (display_value e2C8.odds e2C8.value) 50) :=
  (C8_stored_size (fun _ => 0) [("Team A", ⟨"Team A", some (-120), 50, 50, "L1", 7⟩)]
      e2C8 (by decide)).2.2.2.2.1
    ⟨"Team A", some (-120), 50, 50, "L1", 7⟩ (by decide) (by decide)

/-! ## Claim theorems C10 -/

/-- A book holding one flat selection and one line group, to observe what
an empty line-grouped update changes. -/
def bookC10 : OrderBook :=
  { emptyBookEx with
      selections := [(5, ⟨5, "X", some 100, 3, 0⟩)]
      line_groups := [("1.5", [("X", [⟨5, "X", some 100, 3, 0⟩])])]
      available_lines := ["1.5"] }

/-- C10 counterexample: an update whose `market_lines` list is empty does
**not** leave the book unchanged — `_process_market_selections` has
already cleared the flat `selections` map before the dispatch test fails,
so the previous selections are lost. -/
theorem C10_counterexample :
    (process_market_selections (fun _ => 0) (fun _ => 0) 1 bookC10 ⟨[], []⟩).selections = [] ∧
    bookC10.selections = [(5, ⟨5, "X", some 100, 3, 0⟩)] ∧
    ([] : List (Nat × SelectionLevel)) ≠ [(5, ⟨5, "X", some 100, 3, 0⟩)] := by
  refine ⟨by decide, by decide, by decide⟩

/-- C10 amended: an update with an empty `market_lines` list (and no
direct selections) leaves `line_groups` and `available_lines` unchanged
— the clearing of line data indeed happens only when at least one line is
present — but the flat `selections` map is cleared and `last_update`
refreshed. -/
theorem C10_empty_lines_update (hs : String → Nat) (h : List Char → Nat) (now : ℚ)
    (book : OrderBook) (market : Market)
    (hsel : market.selections = []) (hml : market.market_lines = []) :
    (process_market_selections hs h now book market).line_groups = book.line_groups ∧
    (process_market_selections hs h now book market).available_lines = book.available_lines ∧
    (process_market_selections hs h now book market).selections = [] ∧
    (process_market_selections hs h now book market).last_update = now := by
  simp [process_market_selections, hsel, hml]

/-- C10 witness: the amended theorem applied to `bookC10` and the empty
market update. -/
theorem C10_empty_lines_update_witness :
    (process_market_selections (fun _ => 0) (fun _ => 0) 1 bookC10 ⟨[], []⟩).line_groups =
      bookC10.line_groups ∧
    (process_market_selections (fun _ => 0) (fun _ => 0) 1 bookC10 ⟨[], []⟩).available_lines =
      bookC10.available_lines ∧
    (process_market_selections (fun _ => 0) (fun _ => 0) 1 bookC10 ⟨[], []⟩).selections = [] ∧
    (process_market_selections (fun _ => 0) (fun _ => 0) 1 bookC10 ⟨[], []⟩).last_update = 1 :=
  C10_empty_lines_update (fun _ => 0) (fun _ => 0) 1 bookC10 ⟨[], []⟩ rfl rfl

/-! ## C6: relating `line_groups` and `selections` after a line update -/

/-- The `selections_by_name` table built for one line. -/
def line_pre_levels (h : List Char → Nat) (line : LineEntry) :
    List (String × List PreLevel) :=
  (line.selections.flatten).foldl (add_selection_by_name h line.line_value) []

/-- All levels generated for one line, in insertion order (per name, after
the per-name sort). -/
def line_levels (h : List Char → Nat) (line : LineEntry) : List PreLevel :=
  ((line_pre_levels h line).map (fun p => sort_levels p.2)).flatten

/-- All levels generated by one `_process_market_lines` call, in the
order they are inserted into the flat `selections` map. -/
def generated_levels (h : List Char → Nat) (market_lines : List LineEntry) :
    List PreLevel :=
  (market_lines.map (line_levels h)).flatten

/-- The `selections`-map effect of storing one generated level. -/
def insert_level (now : ℚ) (m : List (Nat × SelectionLevel)) (pre : PreLevel) :
    List (Nat × SelectionLevel) :=
  dinsert pre.unique_id (mk_selection_level now pre) m

lemma add_level_selections (lv name : String) (now : ℚ) :
    ∀ (levels : List PreLevel) (b : OrderBook),
      (levels.foldl (add_level lv name now) b).selections =
        levels.foldl (insert_level now) b.selections := by
  intro levels
  induction levels with
  | nil => intro b; rfl
  | cons pre rest ih =>
      intro b
      rw [List.foldl_cons, List.foldl_cons, ih]
      rfl

lemma add_name_levels_selections (lv name : String) (now : ℚ)
    (b : OrderBook) (levels : List PreLevel) :
    (add_name_levels lv now b name levels).selections =
      levels.foldl (insert_level now) b.selections := by
  unfold add_name_levels
  rw [add_level_selections]

lemma foldl_add_name_levels_selections (lv : String) (now : ℚ) :
    ∀ (ps : List (String × List PreLevel)) (b : OrderBook),
      ((ps.foldl (fun b2 p => add_name_levels lv now b2 p.1 (sort_levels p.2)) b)).selections =
        ((ps.map (fun p => sort_levels p.2)).flatten).foldl (insert_level now) b.selections := by
  intro ps
  induction ps with
  | nil => intro b; rfl
  | cons p rest ih =>
      intro b
      rw [List.foldl_cons, ih, List.map_cons, List.flatten_cons, List.foldl_append,
        add_name_levels_selections]

lemma process_line_selections (h : List Char → Nat) (now : ℚ)
    (b : OrderBook) (line : LineEntry) :
    (process_line h now b line).selections =
      (line_levels h line).foldl (insert_level now) b.selections := by
  unfold process_line line_levels line_pre_levels
  rw [foldl_add_name_levels_selections]
  split <;> rfl

lemma foldl_process_line_selections (h : List Char → Nat) (now : ℚ) :
    ∀ (lines : List LineEntry) (b : OrderBook),
      ((lines.foldl (process_line h now) b)).selections =
        ((lines.map (line_levels h)).flatten).foldl (insert_level now) b.selections := by
  intro lines
  induction lines with
  | nil => intro b; rfl
  | cons line rest ih =>
      intro b
      rw [List.foldl_cons, ih, List.map_cons, List.flatten_cons, List.foldl_append,
        process_line_selections]

lemma process_market_lines_selections (h : List Char → Nat) (now : ℚ)
    (book : OrderBook) (market_lines : List LineEntry)
    (hne : market_lines ≠ []) :
    (process_market_lines h now book market_lines).selections =
      (generated_levels h market_lines).foldl (insert_level now) book.selections := by
  unfold process_market_lines generated_levels
  rw [if_neg hne]
  exact foldl_process_line_selections h now market_lines _

lemma dlookup_foldl_insert_level_of_not_mem (now : ℚ) (k : Nat) :
    ∀ (ls : List PreLevel) (m : List (Nat × SelectionLevel)),
      k ∉ ls.map (fun p => p.unique_id) →
      dlookup k (ls.foldl (insert_level now) m) = dlookup k m := by
  intro ls
  induction ls with
  | nil => intro m _; rfl
  | cons pre rest ih =>
      intro m hk
      rw [List.foldl_cons]
      have hk1 : k ≠ pre.unique_id := by
        intro he; exact hk (by simp [he])
      have hk2 : k ∉ rest.map (fun p => p.unique_id) := by
        intro hmem; exact hk (by simp [hmem])
      rw [ih _ hk2]
      unfold insert_level
      rw [dlookup_dinsert, if_neg hk1]

lemma dlookup_foldl_insert_level_of_mem (now : ℚ) :
    ∀ (ls : List PreLevel) (m : List (Nat × SelectionLevel)) (pre : PreLevel),
      (ls.map (fun p => p.unique_id)).Nodup → pre ∈ ls →
      dlookup pre.unique_id (ls.foldl (insert_level now) m) =
        some (mk_selection_level now pre) := by
  intro ls
  induction ls with
  | nil => intro m pre _ hmem; cases hmem
  | cons hd rest ih =>
      intro m pre hnd hmem
      rw [List.foldl_cons]
      rw [List.map_cons, List.nodup_cons] at hnd
      rcases List.mem_cons.mp hmem with he | hmem2
      · subst he
        rw [dlookup_foldl_insert_level_of_not_mem now _ _ _ hnd.1]
        unfold insert_level
        rw [dlookup_dinsert, if_pos rfl]
      · exact ih _ pre hnd.2 hmem2

/-- A level is stored somewhere in one line group (some name's list). -/
def level_in_group (level : SelectionLevel) (g : List (String × List SelectionLevel)) :
    Prop :=
  ∃ name ls, dlookup name g = some ls ∧ level ∈ ls

/-- A level is stored somewhere in `line_groups`
(some `line_groups[line_value][name]` list). -/
def level_in_groups (level : SelectionLevel)
    (lg : List (String × List (String × List SelectionLevel))) : Prop :=
  ∃ lv g, dlookup lv lg = some g ∧ level_in_group level g

lemma not_level_in_group_nil (level : SelectionLevel) :
    ¬ level_in_group level ([] : List (String × List SelectionLevel)) := by
  rintro ⟨n, ls, hl, _⟩; cases hl

lemma not_level_in_groups_nil (level : SelectionLevel) :
    ¬ level_in_groups level [] := by
  rintro ⟨lv, g, hl, _⟩; cases hl

lemma level_in_group_dinsert (name : String) (ls : List SelectionLevel)
    (g : List (String × List SelectionLevel)) (level : SelectionLevel)
    (h : level_in_group level (dinsert name ls g)) :
    level ∈ ls ∨ level_in_group level g := by
  obtain ⟨name', ls', hl, hm⟩ := h
  rw [dlookup_dinsert] at hl
  by_cases he : name' = name
  · rw [if_pos he] at hl
    cases hl
    exact Or.inl hm
  · rw [if_neg he] at hl
    exact Or.inr ⟨name', ls', hl, hm⟩

lemma level_in_groups_dinsert (lv : String) (gX : List (String × List SelectionLevel))
    (lg : List (String × List (String × List SelectionLevel))) (level : SelectionLevel)
    (h : level_in_groups level (dinsert lv gX lg)) :
    level_in_group level gX ∨ level_in_groups level lg := by
  obtain ⟨lv', g', hl, hm⟩ := h
  rw [dlookup_dinsert] at hl
  by_cases he : lv' = lv
  · rw [if_pos he] at hl
    cases hl
    exact Or.inl hm
  · rw [if_neg he] at hl
    exact Or.inr ⟨lv', g', hl, hm⟩

lemma mem_getD_in_group (name : String) (g : List (String × List SelectionLevel))
    (level : SelectionLevel) (hm : level ∈ (dlookup name g).getD []) :
    level_in_group level g := by
  cases hg : dlookup name g with
  | none => rw [hg] at hm; cases hm
  | some ls => rw [hg] at hm; exact ⟨name, ls, hg, hm⟩

lemma level_in_group_getD (lv : String)
    (lg : List (String × List (String × List SelectionLevel))) (level : SelectionLevel)
    (hm : level_in_group level ((dlookup lv lg).getD [])) :
    level_in_groups level lg := by
  cases hg : dlookup lv lg with
  | none => rw [hg] at hm; exact absurd hm (not_level_in_group_nil level)
  | some g => rw [hg] at hm; exact ⟨lv, g, hg, hm⟩

lemma level_in_groups_add_level (lv name : String) (now : ℚ) (b : OrderBook)
    (pre : PreLevel) (level : SelectionLevel)
    (hmem : level_in_groups level (add_level lv name now b pre).line_groups) :
    level_in_groups level b.line_groups ∨ level = mk_selection_level now pre := by
  have hmem2 : level_in_groups level
      (dinsert lv
        (dinsert name
          (((dlookup name ((dlookup lv b.line_groups).getD [])).getD [])
            ++ [mk_selection_level now pre])
          ((dlookup lv b.line_groups).getD []))
        b.line_groups) := hmem
  rcases level_in_groups_dinsert _ _ _ _ hmem2 with hin | hin
  · rcases level_in_group_dinsert _ _ _ _ hin with hin2 | hin2
    · rcases List.mem_append.mp hin2 with hin3 | hin3
      · exact Or.inl (level_in_group_getD _ _ _ (mem_getD_in_group _ _ _ hin3))
      · right; simpa using hin3
    · exact Or.inl (level_in_group_getD _ _ _ hin2)
  · exact Or.inl hin

lemma level_in_groups_foldl_add_level (lv name : String) (now : ℚ) :
    ∀ (levels : List PreLevel) (b : OrderBook) (level : SelectionLevel),
      level_in_groups level ((levels.foldl (add_level lv name now) b)).line_groups →
      level_in_groups level b.line_groups ∨
        ∃ pre, pre ∈ levels ∧ level = mk_selection_level now pre := by
  intro levels
  induction levels with
  | nil => intro b level hl; exact Or.inl hl
  | cons hd rest ih =>
      intro b level hl
      rw [List.foldl_cons] at hl
      rcases ih _ _ hl with h2 | ⟨pre, hp, he⟩
      · rcases level_in_groups_add_level _ _ _ _ _ _ h2 with h3 | h3
        · exact Or.inl h3
        · exact Or.inr ⟨hd, List.mem_cons_self hd rest, h3⟩
      · exact Or.inr ⟨pre, List.mem_cons_of_mem _ hp, he⟩

lemma level_in_groups_add_name_levels (lv name : String) (now : ℚ) (b : OrderBook)
    (levels : List PreLevel) (level : SelectionLevel)
    (hl : level_in_groups level (add_name_levels lv now b name levels).line_groups) :
    level_in_groups level b.line_groups ∨
      ∃ pre, pre ∈ levels ∧ level = mk_selection_level now pre := by
  have h2 := level_in_groups_foldl_add_level lv name now levels
    { b with line_groups :=
        (dinsert lv
          (if (dlookup name ((dlookup lv b.line_groups).getD [])).isSome then
            (dlookup lv b.line_groups).getD []
          else dinsert name [] ((dlookup lv b.line_groups).getD []))
          b.line_groups) }
    level hl
  rcases h2 with h3 | h3
  · rcases level_in_groups_dinsert _ _ _ _ h3 with h4 | h4
    · by_cases hc : (dlookup name ((dlookup lv b.line_groups).getD [])).isSome
      · rw [if_pos hc] at h4
        exact Or.inl (level_in_group_getD _ _ _ h4)
      · rw [if_neg hc] at h4
        rcases level_in_group_dinsert _ _ _ _ h4 with h5 | h5
        · cases h5
        · exact Or.inl (level_in_group_getD _ _ _ h5)
    · exact Or.inl h4
  · exact Or.inr h3

lemma level_in_groups_foldl_names (lv : String) (now : ℚ) :
    ∀ (ps : List (String × List PreLevel)) (b : OrderBook) (level : SelectionLevel),
      level_in_groups level
        ((ps.foldl (fun b2 p => add_name_levels lv now b2 p.1 (sort_levels p.2)) b)).line_groups →
      level_in_groups level b.line_groups ∨
        ∃ pre, pre ∈ ((ps.map (fun p => sort_levels p.2)).flatten) ∧
          level = mk_selection_level now pre := by
  intro ps
  induction ps with
  | nil => intro b level hl; exact Or.inl hl
  | cons p rest ih =>
      intro b level hl
      rw [List.foldl_cons] at hl
      rcases ih _ _ hl with h2 | ⟨pre, hp, he⟩
      · rcases level_in_groups_add_name_levels _ _ _ _ _ _ h2 with h3 | ⟨pre, hp, he⟩
        · exact Or.inl h3
        · refine Or.inr ⟨pre, ?_, he⟩
          rw [List.map_cons, List.flatten_cons]
          exact List.mem_append_left _ hp
      · refine Or.inr ⟨pre, ?_, he⟩
        rw [List.map_cons, List.flatten_cons]
        exact List.mem_append_right _ hp

lemma level_in_groups_process_line (h : List Char → Nat) (now : ℚ)
    (b : OrderBook) (line : LineEntry) (level : SelectionLevel)
    (hl : level_in_groups level (process_line h now b line).line_groups) :
    level_in_groups level b.line_groups ∨
      ∃ pre, pre ∈ line_levels h line ∧ level = mk_selection_level now pre := by
  have h2 := level_in_groups_foldl_names line.line_value now (line_pre_levels h line)
    (if (dlookup line.line_value b.line_groups).isSome then b
      else
        { b with
            line_groups := (dinsert line.line_value [] b.line_groups)
            available_lines := (b.available_lines ++ [line.line_value]) })
    level hl
  rcases h2 with h3 | h3
  · by_cases hc : (dlookup line.line_value b.line_groups).isSome
    · rw [if_pos hc] at h3
      exact Or.inl h3
    · rw [if_neg hc] at h3
      rcases level_in_groups_dinsert _ _ _ _ h3 with h4 | h4
      · exact absurd h4 (not_level_in_group_nil level)
      · exact Or.inl h4
  · exact Or.inr h3

lemma level_in_groups_foldl_lines (h : List Char → Nat) (now : ℚ) :
    ∀ (lines : List LineEntry) (b : OrderBook) (level : SelectionLevel),
      level_in_groups level ((lines.foldl (process_line h now) b)).line_groups →
      level_in_groups level b.line_groups ∨
        ∃ pre, pre ∈ generated_levels h lines ∧ level = mk_selection_level now pre := by
  intro lines
  induction lines with
  | nil => intro b level hl; exact Or.inl hl
  | cons line rest ih =>
      intro b level hl
      rw [List.foldl_cons] at hl
      rcases ih _ _ hl with h2 | ⟨pre, hp, he⟩
      · rcases level_in_groups_process_line _ _ _ _ _ h2 with h3 | ⟨pre, hp, he⟩
        · exact Or.inl h3
        · refine Or.inr ⟨pre, ?_, he⟩
          unfold generated_levels
          rw [List.map_cons, List.flatten_cons]
          exact List.mem_append_left _ hp
      · refine Or.inr ⟨pre, ?_, he⟩
        unfold generated_levels at hp ⊢
        rw [List.map_cons, List.flatten_cons]
        exact List.mem_append_right _ hp

lemma level_in_groups_process_market_lines (h : List Char → Nat) (now : ℚ)
    (book : OrderBook) (market_lines : List LineEntry) (level : SelectionLevel)
    (hne : market_lines ≠ [])
    (hl : level_in_groups level (process_market_lines h now book market_lines).line_groups) :
    ∃ pre, pre ∈ generated_levels h market_lines ∧ level = mk_selection_level now pre := by
  unfold process_market_lines at hl
  rw [if_neg hne] at hl
  rcases level_in_groups_foldl_lines h now market_lines
      { book with line_groups := [], available_lines := [] } level hl with h2 | h2
  · exact absurd h2 (not_level_in_groups_nil level)
  · exact h2

/-- C6 amended: after a line-grouped update (non-empty `market_lines`, no
direct selections) whose generated derived unique ids are pairwise
distinct, every `SelectionLevel` stored under any
`line_groups[line_value][name]` list is also present, under its derived
unique id, in the book's flat `selections` map.  (Without the
distinctness hypothesis two generated levels can share a derived id —
the id is a hash of a 20-character truncation — and the earlier level is
then missing from `selections`; see the counterexample.) -/
theorem C6_line_groups_selections_consistency (hs : String → Nat) (h : List Char → Nat)
    (now : ℚ) (book : OrderBook) (market : Market)
    (hsel : market.selections = []) (hml : market.market_lines ≠ [])
    (hids : ((generated_levels h market.market_lines).map (fun p => p.unique_id)).Nodup) :
    ∀ level : SelectionLevel,
      level_in_groups level (process_market_selections hs h now book market).line_groups →
      dlookup level.selection_id
        (process_market_selections hs h now book market).selections = some level := by
  intro level hmem
  have hb : process_market_selections hs h now book market =
      { (process_market_lines h now { book with selections := [] } market.market_lines) with
          last_update := now } := by
    unfold process_market_selections
    rw [hsel]
    simp [hml]
  rw [hb] at hmem ⊢
  have hmem2 : level_in_groups level
      (process_market_lines h now { book with selections := [] } market.market_lines).line_groups :=
    hmem
  obtain ⟨pre, hp, he⟩ :=
    level_in_groups_process_market_lines h now _ market.market_lines level hml hmem2
  have hsel2 : ({ (process_market_lines h now { book with selections := [] }
        market.market_lines) with last_update := now }).selections =
      (generated_levels h market.market_lines).foldl (insert_level now) [] := by
    have := process_market_lines_selections h now { book with selections := [] }
      market.market_lines hml
    simpa using this
  rw [hsel2, he]
  have hid : (mk_selection_level now pre).selection_id = pre.unique_id := rfl
  rw [hid]
  exact dlookup_foldl_insert_level_of_mem now _ _ pre hids hp

/-- A concrete stand-in for Python's (seed-randomized) string hash.  The
counterexample below is independent of the choice: the two colliding
unique-id strings are *equal* after the 20-character truncation, so any
hash gives them the same derived id. -/
def hash_len (cs : List Char) : Nat := cs.length

/-- Line entry whose two same-name selections differ only in odds
(−110 vs −120); the 13-digit outcome id makes the 20-character truncation
cut the unique-id strings before the odds digits differ. -/
def lineC6 : LineEntry :=
  ⟨"2.5", [[⟨"Over", some (-110), 0, "L1", 1111111111111⟩,
            ⟨"Over", some (-120), 0, "L1", 1111111111111⟩]]⟩

/-- The line-grouped market update of the C6 counterexample. -/
def marketC6 : Market := ⟨[], [lineC6]⟩

/-- The first generated level (odds −110, display size 1, derived id 20). -/
def level1C6 : SelectionLevel := ⟨20, "Over", some (-110), 1, 0⟩

/-- The second generated level (odds −120), sharing derived id 20. -/
def level2C6 : SelectionLevel := ⟨20, "Over", some (-120), 1, 0⟩

/-- C6 counterexample: both levels share the derived unique id 20
(`"1111111111111_2.5_-1"` for both after truncation), so after the update
`line_groups["2.5"]["Over"]` holds both levels while the `selections` map
holds only the later one — the first level is in a line group but not
present in `selections` under its derived id. -/
theorem C6_counterexample :
    level_in_groups level1C6
      (process_market_selections (fun _ => 0) hash_len 0 emptyBookEx marketC6).line_groups ∧
    dlookup level1C6.selection_id
      (process_market_selections (fun _ => 0) hash_len 0 emptyBookEx marketC6).selections =
      some level2C6 ∧
    level2C6 ≠ level1C6 := by
  refine ⟨⟨"2.5", [("Over", [level1C6, level2C6])], by decide,
    "Over", [level1C6, level2C6], by decide, by decide⟩, by decide, by decide⟩

/-- The line-grouped market update of the C6 witness: two differently
named selections whose derived unique ids (13 and 12 under `hash_len`)
are distinct. -/
def marketC6W : Market :=
  ⟨[], [⟨"2.5", [[⟨"Over", some (-110), 10, "L1", 1⟩,
                  ⟨"Under", some (-105), 0, "L2", 2⟩]]⟩]⟩

/-- C6 witness: the amended theorem applied to a concrete update with
pairwise-distinct derived ids, instantiated at the generated `"Over"`
level. -/
theorem C6_line_groups_selections_consistency_witness :
    dlookup (SelectionLevel.selection_id ⟨13, "Over", some (-110), 10, 0⟩)
      (process_market_selections (fun _ => 0) hash_len 0 emptyBookEx marketC6W).selections =
      some ⟨13, "Over", some (-110), 10, 0⟩ :=
  C6_line_groups_selections_consistency (fun _ => 0) hash_len 0 emptyBookEx marketC6W
    rfl (by decide) (by decide) ⟨13, "Over", some (-110), 10, 0⟩
    ⟨"2.5", [("Over", [⟨13, "Over", some (-110), 10, 0⟩]),
             ("Under", [⟨12, "Under", some (-105), 1, 0⟩])],
      by decide, "Over", [⟨13, "Over", some (-110), 10, 0⟩], by decide, by decide⟩

end MMPlatform
